import Mathlib

/-!
# Verification of the remblob parquet/CSV shovel

This file is a shallow embedding of the tabular codec of the remblob
repository (`ParquetShovel` in the shovel package: `CopyIn`, `CopyOut`,
CSV value parsing/formatting, schema inference with type widening, and
the map-to-struct value conversion), together with proofs of the
testable properties stated in the design spec.

Modelling conventions:
* Go `int64`/`int32` cells are `Int` with explicit range/wrap handling
  where the source's semantics depend on the width.
* Go `float64` values are modelled as exact decimal values
  (`GoFloat.fin m e` denotes `m * 10 ^ e`, plus `inf`/`nan`).  The
  shovel never performs float arithmetic — floats are only parsed from
  text, re-rendered to decimal text, truncated to integers, or compared
  to zero — so decimal values model every operation the code performs
  exactly; IEEE-754 binary rounding only matters for inputs needing more
  than float64 precision, which no theorem below relies on.
  `strconv.ParseFloat`'s full Go-1.13+ syntax is modelled: decimal and
  `Inf`/`NaN` forms, digit-group underscores (validated as in
  `strconv.underscoreOK`, then stripped as `readFloat` does), and
  hexadecimal mantissas (`0x…p…`, taken at their exact value `m·2^k`,
  which is an exact decimal; Go rounds that value to the nearest binary
  float64, and since every render the theorems compare is decimal-only,
  any text reaching the hexadecimal path fails the render-stability
  side conditions in both the model and the program).  `ParseFloat`'s
  over/underflow `ErrRange` failure (|x| outside float64 magnitude) is
  outside the modelled regime; `%g`'s switch to exponent notation for
  |x| ≥ 1e21 or < 1e-4 is likewise abstracted to plain positional
  notation (both notations re-parse to the same value).
* Go maps (`map[string]interface{}`) are association lists where insert
  replaces the previous binding (`mapSet`), matching Go's semantics;
  iteration in the source only ever happens over schema/header order,
  never over the map itself, so map iteration order is not needed.
* The `encoding/csv` byte layer is abstracted to `List (List String)`
  (one record per line, the first record being the header), except for
  the behaviors that decide claims: `csv.Reader` sets `FieldsPerRecord`
  from the first record (the header) and `ReadAll` then fails with
  `ErrFieldCount` on any record of different arity; and the writer emits
  the one-empty-field record `[""]` as a blank line which the reader
  then silently skips (`csvWire` models this writer-to-reader hop, and
  the round-trip wellformedness predicate excludes the affected files).
  Carriage returns are excluded from round-tripped names and string
  cells because `csv.Reader` rewrites `\r\n` to `\n` inside quoted
  fields; every other writer-emitted record is read back verbatim.
-/

/-! ## Decimal digit strings -/

/-- Single decimal digit to character, as `Nat.digitChar` restricted to `< 10`. -/
def digitOf (n : Nat) : Char := Nat.digitChar n

/-- Big-endian decimal digit emitter with explicit fuel (`fuel > n` is enough),
modelling Go's `strconv.FormatInt`/`fmt %d` digit production. -/
def digLoop : Nat → Nat → List Char → List Char
  | 0, _, acc => acc
  | fuel + 1, n, acc =>
    if n < 10 then digitOf n :: acc
    else digLoop fuel (n / 10) (digitOf (n % 10) :: acc)

/-- Decimal digit characters of `n`, most significant first (`0 ↦ "0"`). -/
def natChars (n : Nat) : List Char := digLoop (n + 1) n []

/-- Read a digit string back into a number (callers guarantee all digits). -/
def decFold (cs : List Char) : Nat :=
  cs.foldl (fun a c => a * 10 + (c.toNat - 48)) 0

/-- Signed decimal digit characters of an integer, Go `%d`. -/
def intChars (m : Int) : List Char :=
  if m < 0 then '-' :: natChars m.natAbs else natChars m.natAbs

/-- Go `fmt.Sprintf("%d", m)`. -/
def formatInt (m : Int) : String := ⟨intChars m⟩

/-- Left-pad the decimal digits of `n` with zeros to width `w`
(Go `time.Format` zero-padded fields). -/
def padNum (w n : Nat) : List Char :=
  List.replicate (w - (natChars n).length) '0' ++ natChars n

/-! ## Go strconv parsers -/

/-- ASCII decimal digit test (Go `'0' <= c && c <= '9'`). -/
def isDig (c : Char) : Bool := 48 ≤ c.toNat ∧ c.toNat ≤ 57

/-- Optional leading sign, returning (isNegative, rest). -/
def splitSign (cs : List Char) : Bool × List Char :=
  match cs with
  | [] => (false, [])
  | c :: r =>
    if c = '-' then (true, r)
    else if c = '+' then (false, r)
    else (false, c :: r)

/-- Go `strconv.ParseInt(s, 10, 64)`: optional sign, nonempty decimal
digits, failing (`nil, ErrRange`) outside the int64 range. -/
def goParseInt64 (s : String) : Option Int :=
  if s.data = [] then none
  else
    let p := splitSign s.data
    if p.2 ≠ [] ∧ p.2.all isDig then
      let v : Int := if p.1 then -(decFold p.2 : Int) else (decFold p.2 : Int)
      if -(2 ^ 63) ≤ v ∧ v < 2 ^ 63 then some v else none
    else none

/-- Go `strconv.ParseBool`: exactly these thirteen literals. -/
def goParseBool (s : String) : Option Bool :=
  if s = "1" ∨ s = "t" ∨ s = "T" ∨ s = "TRUE" ∨ s = "true" ∨ s = "True" then
    some true
  else if s = "0" ∨ s = "f" ∨ s = "F" ∨ s = "FALSE" ∨ s = "false" ∨ s = "False" then
    some false
  else none

/-- Model of a Go `float64` value as an exact decimal:
`fin m e` denotes `m * 10 ^ e`. -/
inductive GoFloat where
  | fin (m : Int) (e : Int)
  | inf (neg : Bool)
  | nan
deriving DecidableEq

/-- Strip factors of ten from the mantissa (fuel-driven so that the kernel
can evaluate it); callers pass a nonzero mantissa and enough fuel. -/
def canonGo : Nat → Int → Int → GoFloat
  | 0, m, e => .fin m e
  | fuel + 1, m, e =>
    if m % 10 = 0 then canonGo fuel (m / 10) (e + 1) else .fin m e

/-- Canonical form of a decimal float value: zero is `fin 0 0`, otherwise
the mantissa is not divisible by ten.  Two `GoFloat.fin` values denote the
same number iff their canonical forms are equal. -/
def canonF : GoFloat → GoFloat
  | .fin m e => if m = 0 then .fin 0 0 else canonGo m.natAbs m e
  | f => f

/-- ASCII lower-casing of one character. -/
def lowChar (c : Char) : Char :=
  if 65 ≤ c.toNat ∧ c.toNat ≤ 90 then Char.ofNat (c.toNat + 32) else c

/-- Case-insensitive comparison against an ASCII keyword. -/
def lowerEq (cs : List Char) (kw : String) : Bool :=
  cs.map lowChar = kw.data

/-- Longest digit run at the front of a character list. -/
def spanDigits : List Char → List Char × List Char
  | [] => ([], [])
  | c :: r =>
    if isDig c then
      let (a, b) := spanDigits r
      (c :: a, b)
    else ([], c :: r)

/-- The fractional part after the integer digits: a leading `'.'` starts a
second digit run, anything else leaves the remainder untouched. -/
def fracSplit (cs : List Char) : List Char × List Char :=
  if cs.head? = some '.' then spanDigits cs.tail else ([], cs)

/-- The optional exponent suffix of a float literal; `mant` and `flen` are
the collected mantissa digits and the fractional digit count. -/
def expTail (mant : Int) (flen : Nat) : List Char → Option GoFloat
  | [] => some (canonF (.fin mant (-(flen : Int))))
  | c :: r =>
    if c = 'e' ∨ c = 'E' then
      let p := splitSign r
      if p.2 ≠ [] ∧ p.2.all isDig then
        let ex : Int := if p.1 then -(decFold p.2 : Int) else (decFold p.2 : Int)
        some (canonF (.fin mant (ex - (flen : Int))))
      else none
    else none

/-- The decimal (and Inf/NaN) branch of `strconv.ParseFloat(s, 64)`,
reached on underscore-free text without the `0x` mantissa prefix.  The
result is canonical. -/
def goParseFloatDec (s : String) : Option GoFloat :=
  let neg := (splitSign s.data).1
  let body := (splitSign s.data).2
  if lowerEq body "inf" ∨ lowerEq body "infinity" then some (.inf neg)
  else if s.data ≠ [] ∧ s.data.head? ≠ some '+' ∧ s.data.head? ≠ some '-'
          ∧ lowerEq body "nan" then some .nan
  else
    let ipart := (spanDigits body).1
    let rest1 := (spanDigits body).2
    let fpart := (fracSplit rest1).1
    let rest2 := (fracSplit rest1).2
    if ipart ++ fpart = [] then none
    else
      expTail (if neg then -(decFold (ipart ++ fpart) : Int) else (decFold (ipart ++ fpart) : Int))
        fpart.length rest2

/-- Hexadecimal digit value (Go `'0'-'9'`, `'a'-'f'`, `'A'-'F'`). -/
def hexDigVal (c : Char) : Option Nat :=
  if 48 ≤ c.toNat ∧ c.toNat ≤ 57 then some (c.toNat - 48)
  else if 97 ≤ (lowChar c).toNat ∧ (lowChar c).toNat ≤ 102 then
    some ((lowChar c).toNat - 87)
  else none

/-- ASCII hexadecimal digit test. -/
def isHexDig (c : Char) : Bool := (hexDigVal c).isSome

/-- Longest hexadecimal digit run at the front of a character list. -/
def spanHexDigits : List Char → List Char × List Char
  | [] => ([], [])
  | c :: r =>
    if isHexDig c then
      let (a, b) := spanHexDigits r
      (c :: a, b)
    else ([], c :: r)

/-- Read a hexadecimal digit string back into a number. -/
def hexFold (cs : List Char) : Nat :=
  cs.foldl (fun a c => a * 16 + (hexDigVal c).getD 0) 0

/-- Whether post-sign float text selects `strconv`'s hexadecimal mantissa
path (a `0x`/`0X` prefix). -/
def hexPrefixed : List Char → Bool
  | c0 :: c1 :: _ => c0 = '0' ∧ (c1 = 'x' ∨ c1 = 'X')
  | _ => false

/-- The hexadecimal branch of `strconv.ParseFloat` (Go ≥1.13 syntax
`[sign] 0x hexdigits [. hexdigits] (p|P) [sign] decdigits`, with at least
one mantissa digit and a mandatory exponent), taken at its exact value
`mantissa · 2^exponent` as an exact decimal (`m·2^k = m·5^(−k)·10^k` for
negative `k`); see the header comment on the value idealisation. -/
def goParseHex (s : String) : Option GoFloat :=
  let neg := (splitSign s.data).1
  match (splitSign s.data).2 with
  | c0 :: c1 :: rest =>
    if c0 = '0' ∧ (c1 = 'x' ∨ c1 = 'X') then
      let ip := spanHexDigits rest
      let fp := if ip.2.head? = some '.' then spanHexDigits ip.2.tail else ([], ip.2)
      if ip.1 ++ fp.1 = [] then none
      else
        match fp.2 with
        | e :: er =>
          if e = 'p' ∨ e = 'P' then
            let q := splitSign er
            if q.2 ≠ [] ∧ q.2.all isDig then
              let ex : Int :=
                (if q.1 then -(decFold q.2 : Int) else (decFold q.2 : Int)) -
                  4 * (fp.1.length : Int)
              let mag : Int :=
                if neg then -(hexFold (ip.1 ++ fp.1) : Int)
                else (hexFold (ip.1 ++ fp.1) : Int)
              if 0 ≤ ex then some (canonF (.fin (mag * 2 ^ ex.toNat) 0))
              else some (canonF (.fin (mag * 5 ^ (-ex).toNat) ex))
            else none
          else none
        | [] => none
    else none
  | _ => none

/-- One scanning step of `strconv.underscoreOK`; `saw` is `'^'` at the
start of the number, `'0'` after a digit (or the base prefix), `'_'` after
an underscore, `'!'` after anything else. -/
def underLoop (hex : Bool) : Char → List Char → Bool
  | saw, [] => saw ≠ '_'
  | saw, c :: r =>
    if isDig c ∨ (hex ∧ 97 ≤ (lowChar c).toNat ∧ (lowChar c).toNat ≤ 102) then
      underLoop hex '0' r
    else if c = '_' then
      if saw = '0' then underLoop hex '_' r else false
    else if saw = '_' then false
    else underLoop hex '!' r

/-- Go `strconv.underscoreOK`: underscores must appear only between digits
or between a base prefix and a digit (`0b`/`0o`/`0x` count as digits). -/
def underscoreOK (cs : List Char) : Bool :=
  match (splitSign cs).2 with
  | c0 :: c1 :: r =>
    if c0 = '0' ∧ (lowChar c1 = 'b' ∨ lowChar c1 = 'o' ∨ lowChar c1 = 'x') then
      underLoop (decide (lowChar c1 = 'x')) '0' r
    else underLoop false '^' (c0 :: c1 :: r)
  | body => underLoop false '^' body

/-- Remove digit-group underscores (Go's `readFloat` skips them while
scanning, after `underscoreOK` has validated their placement). -/
def stripUnders (s : String) : String := ⟨s.data.filter (· ≠ '_')⟩

/-- `strconv.ParseFloat` on underscore-free text: the hexadecimal branch
when the post-sign mantissa has the `0x` prefix, else the decimal branch. -/
def goParseFloatPlain (s : String) : Option GoFloat :=
  if hexPrefixed (splitSign s.data).2 then goParseHex s else goParseFloatDec s

/-- Go `strconv.ParseFloat(s, 64)` (see the header comment for the
`ErrRange` regime not modelled and the hexadecimal value idealisation).
The result is canonical. -/
def goParseFloat (s : String) : Option GoFloat :=
  if '_' ∈ s.data then
    if underscoreOK s.data then goParseFloatPlain (stripUnders s) else none
  else goParseFloatPlain s

/-- Go `fmt` rendering of a float (`%v`/`%g`), in positional decimal
notation (see header comment). -/
def goFormatFloat : GoFloat → String
  | .inf true => "-Inf"
  | .inf false => "+Inf"
  | .nan => "NaN"
  | .fin m e =>
    if 0 ≤ e then ⟨intChars (m * (10 : Int) ^ e.toNat)⟩
    else
      let k := (-e).toNat
      let ds := natChars m.natAbs
      let sign : List Char := if m < 0 then ['-'] else []
      if k < ds.length then
        ⟨sign ++ ds.take (ds.length - k) ++ '.' :: ds.drop (ds.length - k)⟩
      else
        ⟨sign ++ '0' :: '.' :: (List.replicate (k - ds.length) '0' ++ ds)⟩

/-! ## Dynamically-typed cell values (`interface{}` after `parseCSVValue`) -/

/-- The dynamic value a CSV cell is parsed into (`nil`, `bool`, `int64`,
`float64`, or `string`). -/
inductive GoValue where
  | vnull
  | vbool (b : Bool)
  | vint (n : Int)
  | vfloat (f : GoFloat)
  | vstr (s : String)
deriving DecidableEq

/-- Source `parseCSVValue`: empty ↦ nil, then integer, float, boolean,
else string — in exactly that attempted-parse order. -/
def parseCSVValue (s : String) : GoValue :=
  if s = "" then .vnull
  else
    match goParseInt64 s with
    | some n => .vint n
    | none =>
      match goParseFloat s with
      | some f => .vfloat f
      | none =>
        match goParseBool s with
        | some b => .vbool b
        | none => .vstr s

/-- Go `fmt.Sprintf("%v", value)` on the dynamic values above. -/
def govFormat : GoValue → String
  | .vnull => "<nil>"
  | .vbool true => "true"
  | .vbool false => "false"
  | .vint n => formatInt n
  | .vfloat f => goFormatFloat f
  | .vstr s => s

/-! ## Date and timestamp rendering (Go `time` package, UTC) -/

/-- Gregorian leap year test. -/
def isLeapYear (y : Nat) : Bool := (y % 4 = 0 ∧ y % 100 ≠ 0) ∨ y % 400 = 0

/-- Days in month `m` of year `y` (months 1–12). -/
def daysInMonth (y m : Nat) : Nat :=
  if m = 2 then (if isLeapYear y then 29 else 28)
  else if m = 4 ∨ m = 6 ∨ m = 9 ∨ m = 11 then 30
  else 31

/-- Days from 0001-01-01 to January 1 of year `y` (proleptic Gregorian). -/
def daysBeforeYear (y : Nat) : Nat :=
  (y - 1) * 365 + (y - 1) / 4 - (y - 1) / 100 + (y - 1) / 400

/-- Zero-based day-of-year of `y-m-d`. -/
def dayOfYear (y m d : Nat) : Nat :=
  (List.range (m - 1)).foldl (fun a i => a + daysInMonth y (i + 1)) 0 + (d - 1)

/-- Days since the Unix epoch of the civil date `y-m-d`
(Go `t.Sub(epoch)` on midnight UTC values; 719162 days precede 1970-01-01). -/
def civilToEpochDays (y m d : Nat) : Int :=
  (daysBeforeYear y + dayOfYear y m d : Int) - 719162

/-- Civil date `(y, m, d)` from a day count since the Unix epoch
(days ≥ -719468 i.e. years ≥ 0; era-based closed form). -/
def civilFromEpochDays (days : Int) : Nat × Nat × Nat :=
  let z : Nat := (days + 719468).toNat
  let era := z / 146097
  let doe := z % 146097
  let yoe := (doe - doe / 1460 + doe / 36524 - doe / 146096) / 365
  let doy := doe - (365 * yoe + yoe / 4 - yoe / 100)
  let mp := (5 * doy + 2) / 153
  let d := doy - (153 * mp + 2) / 5 + 1
  let m := if mp < 10 then mp + 3 else mp - 9
  let y := yoe + era * 400 + (if m ≤ 2 then 1 else 0)
  (y, m, d)

/-- Source `formatCSVValue` DATE branch: render a days-since-epoch count
with Go layout `2006-01-02`. -/
def formatDateStr (days : Int) : String :=
  match civilFromEpochDays days with
  | (y, m, d) => ⟨padNum 4 y ++ '-' :: padNum 2 m ++ '-' :: padNum 2 d⟩

/-- Source `formatCSVValue` TIMESTAMP branch: render nanoseconds since the
epoch with Go layout `2006-01-02 15:04:05.000000000` (UTC). -/
def formatTimestampStr (nanos : Int) : String :=
  let secs := (nanos).fdiv 1000000000
  let frac := (nanos - secs * 1000000000).toNat
  let days := secs.fdiv 86400
  let rem := (secs - days * 86400).toNat
  match civilFromEpochDays days with
  | (y, m, d) =>
    ⟨padNum 4 y ++ '-' :: padNum 2 m ++ '-' :: padNum 2 d ++ ' ' ::
      padNum 2 (rem / 3600) ++ ':' :: padNum 2 (rem % 3600 / 60) ++ ':' ::
      padNum 2 (rem % 60) ++ '.' :: padNum 9 frac⟩

/-- Decimal value of a fixed run of digit characters, `none` unless every
character is a digit. -/
def digitsVal (cs : List Char) : Option Nat :=
  if cs.all isDig then some (decFold cs) else none

/-- Source `setFieldValue` DATE branch: Go `time.Parse("2006-01-02", s)`
followed by the duration division back to a day count.  Strict fixed-width
fields with range validation, as `time.Parse` enforces. -/
def parseDateStr (s : String) : Option Int :=
  match s.data with
  | [y1, y2, y3, y4, '-', m1, m2, '-', d1, d2] =>
    match digitsVal [y1, y2, y3, y4], digitsVal [m1, m2], digitsVal [d1, d2] with
    | some y, some m, some d =>
      if 1 ≤ m ∧ m ≤ 12 ∧ 1 ≤ d ∧ d ≤ daysInMonth y m then
        some (civilToEpochDays y m d)
      else none
    | _, _, _ => none
  | _ => none

/-- Source `setFieldValue` TIMESTAMP branch: Go
`time.Parse("2006-01-02 15:04:05.000000000", s).UnixNano()`. -/
def parseTimestampStr (s : String) : Option Int :=
  match s.data with
  | [y1, y2, y3, y4, '-', m1, m2, '-', d1, d2, ' ',
     h1, h2, ':', i1, i2, ':', s1, s2, '.',
     n1, n2, n3, n4, n5, n6, n7, n8, n9] =>
    match digitsVal [y1, y2, y3, y4], digitsVal [m1, m2], digitsVal [d1, d2],
          digitsVal [h1, h2], digitsVal [i1, i2], digitsVal [s1, s2],
          digitsVal [n1, n2, n3, n4, n5, n6, n7, n8, n9] with
    | some y, some m, some d, some hh, some mi, some ss, some fr =>
      if 1 ≤ m ∧ m ≤ 12 ∧ 1 ≤ d ∧ d ≤ daysInMonth y m ∧ hh ≤ 23 ∧ mi ≤ 59 ∧ ss ≤ 59 then
        some ((civilToEpochDays y m d * 86400 + (hh * 3600 + mi * 60 + ss : Nat)) *
          1000000000 + (fr : Int))
      else none
    | _, _, _, _, _, _, _ => none
  | _ => none

/-! ## Schema model (`parquetField`, `parquetSchema`) -/

/-- The two `parquet.ConvertedType` values the source inspects. -/
inductive PConvertedType where
  | DATE
  | UTF8
deriving DecidableEq

/-- The two `parquet.LogicalType` variants the source inspects. -/
inductive PLogicalType where
  | TIMESTAMP
  | DATE
deriving DecidableEq

/-- Source `parquetField`: name, physical type string (e.g. `"INT64"`),
optional converted type, optional logical type. -/
structure ParquetField where
  name : String
  type : String
  convertedType : Option PConvertedType
  logicalType : Option PLogicalType
deriving DecidableEq

/-- ASCII upper-casing, Go `strings.ToUpper` on the type strings used here. -/
def asciiUpper (s : String) : String := ⟨s.data.map Char.toUpper⟩

/-- The Go struct field kinds produced by `parquetTypeToGoType`. -/
inductive GoKind where
  | gBool
  | gInt32
  | gInt64
  | gFloat32
  | gFloat64
  | gString
deriving DecidableEq

/-- Source `parquetTypeToGoType`: parquet type string to Go field type
(defaulting to string). -/
def parquetTypeToGoType (t : String) : GoKind :=
  let u := asciiUpper t
  if u = "BOOLEAN" then .gBool
  else if u = "INT32" then .gInt32
  else if u = "INT64" then .gInt64
  else if u = "FLOAT" then .gFloat32
  else if u = "DOUBLE" then .gFloat64
  else .gString

/-- A typed struct cell as held by the reflection-built row struct. -/
inductive TypedCell where
  | cBool (b : Bool)
  | cInt32 (n : Int)
  | cInt64 (n : Int)
  | cFloat32 (f : GoFloat)
  | cFloat64 (f : GoFloat)
  | cStr (s : String)
deriving DecidableEq

/-- Go zero value of each struct field kind. -/
def zeroCell : GoKind → TypedCell
  | .gBool => .cBool false
  | .gInt32 => .cInt32 0
  | .gInt64 => .cInt64 0
  | .gFloat32 => .cFloat32 (.fin 0 0)
  | .gFloat64 => .cFloat64 (.fin 0 0)
  | .gString => .cStr ""

/-! ## Go map model (association list with replacing insert) -/

/-- Insert-or-replace a key binding, Go `m[k] = v`. -/
def mapSet {α : Type} : List (String × α) → String → α → List (String × α)
  | [], k, v => [(k, v)]
  | (k', v') :: rest, k, v =>
    if k' = k then (k, v) :: rest else (k', v') :: mapSet rest k v

/-- Lookup, Go `v, ok := m[k]`. -/
def mapGet {α : Type} : List (String × α) → String → Option α
  | [], _ => none
  | (k', v') :: rest, k => if k' = k then some v' else mapGet rest k

/-- Build a Go map from a pair sequence (later pairs overwrite earlier ones). -/
def buildMap {α : Type} (pairs : List (String × α)) : List (String × α) :=
  pairs.foldl (fun m p => mapSet m p.1 p.2) []

/-! ## CopyIn: parquet rows to CSV text -/

/-- Source `formatCSVValue`: semantic DATE/TIMESTAMP rendering when the
schema field says so and the value has the matching storage type,
otherwise the default `%d`/`%g`/`bool`/`string` rendering. -/
def formatCSVValue (value : TypedCell) (field : Option ParquetField) : String :=
  match field, value with
  | some f, .cInt32 days =>
    if f.convertedType = some .DATE then formatDateStr days
    else formatInt days
  | some f, .cInt64 nanos =>
    if f.logicalType = some .TIMESTAMP then formatTimestampStr nanos
    else formatInt nanos
  | _, .cInt32 n => formatInt n
  | _, .cInt64 n => formatInt n
  | _, .cStr s => s
  | _, .cFloat32 f => goFormatFloat f
  | _, .cFloat64 f => goFormatFloat f
  | _, .cBool true => "true"
  | _, .cBool false => "false"

/-- Source `writeRecordAsCSV`'s schema lookup: first field with this name. -/
def findField : List ParquetField → String → Option ParquetField
  | [], _ => none
  | f :: rest, h => if f.name = h then some f else findField rest h

/-- Source `extractFieldValues`: struct fields matched with schema fields
by index, collected into a map keyed by the schema field name. -/
def buildRecordIn (fields : List ParquetField) (row : List TypedCell) :
    List (String × TypedCell) :=
  buildMap ((fields.zip row).map fun fc => (fc.1.name, fc.2))

/-- Source `writeRecordAsCSV`: one CSV cell per header, empty when the
record has no binding for that header. -/
def writeRecordAsCSV (record : List (String × TypedCell)) (headers : List String)
    (fields : List ParquetField) : List String :=
  headers.map fun h =>
    match mapGet record h with
    | some v => formatCSVValue v (findField fields h)
    | none => ""

/-- A parquet file at the granularity the codec observes it: the flat leaf
schema, the footer key/value metadata (`none` models a nil Go slice), and
the rows. -/
structure ParquetFile where
  fields : List ParquetField
  metadata : Option (List (String × String))
  rows : List (List TypedCell)
deriving DecidableEq

/-- The `ParquetShovel` codec state captured by `CopyIn`. -/
structure ShovelState where
  schema : Option (List ParquetField)
  metadata : Option (List (String × String))
deriving DecidableEq

/-- Source `ParquetShovel.CopyIn`: store schema and metadata, then emit the
header record followed by one formatted record per row. -/
def copyIn (file : ParquetFile) : ShovelState × List (List String) :=
  let headers := file.fields.map (·.name)
  (⟨some file.fields, file.metadata⟩,
    headers ::
      file.rows.map fun row =>
        writeRecordAsCSV (buildRecordIn file.fields row) headers file.fields)

/-! ## CopyOut: value conversion (`setFieldValue` and helpers) -/

/-- Go `int64(x)` truncation toward zero of a decimal float (`Int.div`
rounds toward zero).  Infinite/NaN conversion is implementation-defined in
Go and unused by every theorem below. -/
def truncFloatToInt : GoFloat → Int
  | .fin m e => if 0 ≤ e then m * (10 : Int) ^ e.toNat else Int.tdiv m ((10 : Int) ^ (-e).toNat)
  | _ => 0

/-- Source `convertToInt64`. -/
def convertToInt64 : GoValue → Option Int
  | .vint n => some n
  | .vfloat f => some (truncFloatToInt f)
  | .vstr s => goParseInt64 s
  | _ => none

/-- Source `convertToFloat64`. -/
def convertToFloat64 : GoValue → Option GoFloat
  | .vint n => some (canonF (.fin n 0))
  | .vfloat f => some f
  | .vstr s => goParseFloat s
  | _ => none

/-- Source `convertToBool` (note: no `float64` case in the source switch). -/
def convertToBool : GoValue → Option Bool
  | .vbool b => some b
  | .vint n => some (n ≠ 0)
  | .vstr s => goParseBool s
  | _ => none

/-- Wrap to int32 two's complement, Go `reflect.Value.SetInt` on an int32
field (SetInt stores `int32(x)`, silently truncating). -/
def wrap32 (n : Int) : Int := (n + 2 ^ 31) % 2 ^ 32 - 2 ^ 31

/-- The `sourceValue.Type() == targetType` exact-match branch of
`setFieldValue` (parsed CSV values are `bool`/`int64`/`float64`/`string`). -/
def exactCell (target : GoKind) : GoValue → Option TypedCell
  | .vbool b => if target = .gBool then some (.cBool b) else none
  | .vint n => if target = .gInt64 then some (.cInt64 n) else none
  | .vfloat f => if target = .gFloat64 then some (.cFloat64 f) else none
  | .vstr s => if target = .gString then some (.cStr s) else none
  | .vnull => none

/-- The numeric-conversion switch of `setFieldValue`. -/
def numCell (target : GoKind) (v : GoValue) : Option TypedCell :=
  match target with
  | .gInt32 => (convertToInt64 v).map fun n => .cInt32 (wrap32 n)
  | .gInt64 => (convertToInt64 v).map .cInt64
  | .gFloat32 => (convertToFloat64 v).map .cFloat32
  | .gFloat64 => (convertToFloat64 v).map .cFloat64
  | .gBool => (convertToBool v).map .cBool
  | .gString => none

/-- Go reflect `ConvertibleTo` between the dynamic source types that occur
(`bool`/`int64`/`float64`/`string`) and the struct field kinds.  (The
reachable fallback cases in `setFieldValue` all fail; the integer→string
rune conversion is intercepted earlier by the string-target branch.) -/
def goConvertible : GoValue → GoKind → Bool
  | .vbool _, t => t = .gBool
  | .vint _, t => t = .gInt32 ∨ t = .gInt64 ∨ t = .gFloat32 ∨ t = .gFloat64 ∨ t = .gString
  | .vfloat _, t => t = .gInt32 ∨ t = .gInt64 ∨ t = .gFloat32 ∨ t = .gFloat64
  | .vstr _, t => t = .gString
  | .vnull, _ => false

/-- Source `setFieldValue`: nil leaves the zero value; then exact type
match; then the strict DATE / TIMESTAMP string parses (falling through on
parse failure); then the string-target `%v` rendering; then the numeric
conversions; a failing remainder is a conversion error (`none`). -/
def setFieldValue (target : GoKind) (field : Option ParquetField) (v : GoValue) :
    Option TypedCell :=
  match v with
  | .vnull => some (zeroCell target)
  | _ =>
    match exactCell target v with
    | some c => some c
    | none =>
      match target, field, v with
      | .gInt32, some f, .vstr s =>
        if f.convertedType = some .DATE then
          match parseDateStr s with
          | some days => some (.cInt32 days)
          | none => setFieldValueTail .gInt32 v
        else setFieldValueTail .gInt32 v
      | .gInt64, some f, .vstr s =>
        if f.logicalType = some .TIMESTAMP then
          match parseTimestampStr s with
          | some nanos => some (.cInt64 nanos)
          | none => setFieldValueTail .gInt64 v
        else setFieldValueTail .gInt64 v
      | t, _, _ => setFieldValueTail t v
where
  /-- The post-date/timestamp remainder of `setFieldValue`. -/
  setFieldValueTail (target : GoKind) (v : GoValue) : Option TypedCell :=
    if target = .gString then some (.cStr (govFormat v))
    else
      match numCell target v with
      | some c => some c
      | none => if goConvertible v target then none else none

/-! ## CopyOut: records, inference and assembly -/

/-- A parsed CSV record as a Go map. -/
abbrev GoRecord := List (String × GoValue)

/-- Source record construction in `CopyOut`:
`record[headers[i]] = parseCSVValue(value)`. -/
def buildRecordOut (headers : List String) (cells : List String) : GoRecord :=
  buildMap ((headers.zip cells).map fun hc => (hc.1, parseCSVValue hc.2))

/-- Source `parquetTypeRank`: `Empty < Boolean < Int < Float < String`. -/
inductive TypeRank where
  | typeEmpty
  | typeBoolean
  | typeInt
  | typeFloat
  | typeString
deriving DecidableEq

/-- Numeric value of a rank (the iota order of the source constants). -/
def TypeRank.toNat : TypeRank → Nat
  | .typeEmpty => 0
  | .typeBoolean => 1
  | .typeInt => 2
  | .typeFloat => 3
  | .typeString => 4

/-- The widening step `if valueTypeRank > currentTypeRank { … }`. -/
def rankWiden (cur v : TypeRank) : TypeRank :=
  if cur.toNat < v.toNat then v else cur

/-- Source `getValueTypeRank`.  (In `CopyOut` the string branch is reached
only by strings that failed every parse in `parseCSVValue`, but the source
re-tests them, trying boolean first — this model does the same.) -/
def getValueTypeRank : GoValue → TypeRank
  | .vnull => .typeEmpty
  | .vstr s =>
    if s = "" then .typeEmpty
    else if (goParseBool s).isSome then .typeBoolean
    else if (goParseInt64 s).isSome then .typeInt
    else if (goParseFloat s).isSome then .typeFloat
    else .typeString
  | .vbool _ => .typeBoolean
  | .vint _ => .typeInt
  | .vfloat _ => .typeFloat

/-- Source `determineWidestType`'s scan, with its early exit once the
String rank is reached. -/
def widestGo (name : String) : List GoRecord → TypeRank → TypeRank
  | [], cur => cur
  | r :: rs, cur =>
    let cur' :=
      match mapGet r name with
      | none => cur
      | some v => rankWiden cur (getValueTypeRank v)
    if cur' = .typeString then cur' else widestGo name rs cur'

/-- Source `typeRankToParquetType` (empty defaults to the string type). -/
def typeRankToParquetType : TypeRank → String
  | .typeEmpty => "BYTE_ARRAY"
  | .typeBoolean => "BOOLEAN"
  | .typeInt => "INT64"
  | .typeFloat => "DOUBLE"
  | .typeString => "BYTE_ARRAY"

/-- Source `determineWidestType`. -/
def determineWidestType (name : String) (records : List GoRecord) : String :=
  typeRankToParquetType (widestGo name records .typeEmpty)

/-- Source `inferSchemaWithTypeWidening`: header-ordered fields with the
widest observed type; an empty record list yields an empty schema. -/
def inferSchemaWithTypeWidening (records : List GoRecord) (headers : List String) :
    List ParquetField :=
  if records = [] then []
  else headers.map fun name => ⟨name, determineWidestType name records, none, none⟩

deriving instance DecidableEq for Except

/-- The `CopyOut` error values (in source order of occurrence). -/
inductive CopyErr where
  | headerRead
  | recordsRead
  | emptyInput
  | conv (field : String) (row : Nat) (value : String)
deriving DecidableEq

/-- Source `convertMapToStruct`'s field loop: missing map entries keep the
zero value; a failing `setFieldValue` aborts with the field name, the given
1-based row number, and the `%v` rendering of the offending map value. -/
def convertFields (record : GoRecord) (rowNumber : Nat) :
    List ParquetField → Except CopyErr (List TypedCell)
  | [] => .ok []
  | f :: rest =>
    let kind := parquetTypeToGoType f.type
    match mapGet record f.name with
    | none =>
      match convertFields record rowNumber rest with
      | .error e => .error e
      | .ok cells => .ok (zeroCell kind :: cells)
    | some v =>
      match setFieldValue kind (some f) v with
      | none => .error (.conv f.name rowNumber (govFormat v))
      | some c =>
        match convertFields record rowNumber rest with
        | .error e => .error e
        | .ok cells => .ok (c :: cells)

/-- Source `convertMapToStruct` (the struct type is built from the same
schema, so the index guard in the source never fires). -/
def convertMapToStruct (record : GoRecord) (fields : List ParquetField)
    (rowNumber : Nat) : Except CopyErr (List TypedCell) :=
  convertFields record rowNumber fields

/-- The write loop of `CopyOut`: `rowIndex+1` is the 1-based row number. -/
def convertRecords (fields : List ParquetField) (rowIndex : Nat) :
    List GoRecord → Except CopyErr (List (List TypedCell))
  | [] => .ok []
  | r :: rs =>
    match convertMapToStruct r fields (rowIndex + 1) with
    | .error e => .error e
    | .ok row =>
      match convertRecords fields (rowIndex + 1) rs with
      | .error e => .error e
      | .ok rows => .ok (row :: rows)

/-- The observable outcome of one `CopyOut` call: every complete parquet
file written to the destination writer (the source buffers everything and
performs a single final copy), and the error if any. -/
structure CopyOutcome where
  written : List ParquetFile
  err : Option CopyErr
deriving DecidableEq

/-- Source `ParquetShovel.CopyOut`.  The first record is the header
(`csvReader.Read`); `ReadAll` fails with `ErrFieldCount` if any remaining
record's arity differs from the header's (the in-loop skip of mismatched
records is therefore unreachable but kept, mirroring the source); an empty
record list is fatal; the stored schema is reused when present, otherwise
inferred; rows are converted and the buffered file — with the preserved
metadata reattached when present — is written in one final copy. -/
def copyOut (st : ShovelState) (csv : List (List String)) : CopyOutcome :=
  match csv with
  | [] => ⟨[], some .headerRead⟩
  | headers :: rest =>
    if rest.any fun r => r.length ≠ headers.length then ⟨[], some .recordsRead⟩
    else if rest = [] then ⟨[], some .emptyInput⟩
    else
      let records :=
        (rest.filter fun r => r.length = headers.length).map (buildRecordOut headers)
      let schemaToUse :=
        match st.schema with
        | some s => s
        | none => inferSchemaWithTypeWidening records headers
      match convertRecords schemaToUse 0 records with
      | .error e => ⟨[], some e⟩
      | .ok rows =>
        ⟨[⟨schemaToUse,
           match st.metadata with
           | some m => some m
           | none => none,
           rows⟩], none⟩

/-! ## Round-trip wellformedness and the per-cell round trip -/

/-- The rank a record contributes to a column (absent entries widen nothing). -/
def rankOfEntry (name : String) (r : GoRecord) : TypeRank :=
  match mapGet r name with
  | none => .typeEmpty
  | some v => getValueTypeRank v

/-- The widening fold without the early exit. -/
def rankFold (name : String) (records : List GoRecord) (cur : TypeRank) : TypeRank :=
  records.foldl (fun c r => rankWiden c (rankOfEntry name r)) cur

/-! ## Concrete fixtures used by the claim witnesses and counterexamples -/

/-- A `name` string column. -/
def fNameField : ParquetField := ⟨"name", "BYTE_ARRAY", some .UTF8, none⟩

/-- An `age` int64 column. -/
def fAgeField : ParquetField := ⟨"age", "INT64", none, none⟩

/-- A DATE-annotated int32 column. -/
def fDateField : ParquetField := ⟨"d", "INT32", some .DATE, none⟩

/-- A TIMESTAMP-annotated int64 column. -/
def fTsField : ParquetField := ⟨"t", "INT64", none, some .TIMESTAMP⟩

/-- A four-column sample file exercising all plain cell types. -/
def rtSampleFile : ParquetFile :=
  ⟨[⟨"a", "BOOLEAN", none, none⟩, ⟨"b", "INT64", none, none⟩,
    ⟨"c", "DOUBLE", none, none⟩, ⟨"d", "BYTE_ARRAY", some .UTF8, none⟩],
   some [("k", "v")],
   [[.cBool true, .cInt64 25, .cFloat64 (.fin 25 (-1)), .cStr "hello"]]⟩

/-- A two-column file with zero rows and a metadata blob. -/
def zeroRowFile : ParquetFile :=
  ⟨[fNameField, fAgeField], some [("pandas", "{}")], []⟩

/-! ## Lemmas: decimal digits -/

theorem goParseInt64_empty : goParseInt64 "" = none := rfl

theorem parseCSVValue_empty : parseCSVValue "" = .vnull := rfl

theorem parseCSVValue_int {s : String} {n : Int} (h : goParseInt64 s = some n) :
    parseCSVValue s = .vint n := by
  have hs : s ≠ "" := by rintro rfl; rw [goParseInt64_empty] at h; cases h
  unfold parseCSVValue
  rw [if_neg hs, h]

theorem parseCSVValue_float {s : String} {f : GoFloat} (hs : s ≠ "")
    (hi : goParseInt64 s = none) (hf : goParseFloat s = some f) :
    parseCSVValue s = .vfloat f := by
  unfold parseCSVValue
  rw [if_neg hs, hi, hf]

theorem parseCSVValue_bool {s : String} {b : Bool} (hs : s ≠ "")
    (hi : goParseInt64 s = none) (hf : goParseFloat s = none)
    (hb : goParseBool s = some b) : parseCSVValue s = .vbool b := by
  unfold parseCSVValue
  rw [if_neg hs, hi, hf, hb]

theorem parseCSVValue_str {s : String} (hs : s ≠ "")
    (hi : goParseInt64 s = none) (hf : goParseFloat s = none)
    (hb : goParseBool s = none) : parseCSVValue s = .vstr s := by
  unfold parseCSVValue
  rw [if_neg hs, hi, hf, hb]

theorem metaOpt_id (o : Option (List (String × String))) :
    (match o with | some m => some m | none => none) = o := by
  cases o <;> rfl

theorem copyOut_conv_err {st : ShovelState} {schema : List ParquetField}
    (headers : List String) (rest : List (List String)) {e : CopyErr}
    (hschema : st.schema = some schema)
    (hlens : ∀ r ∈ rest, r.length = headers.length)
    (hne : rest ≠ [])
    (hconv : convertRecords schema 0
      ((rest.filter fun r => r.length = headers.length).map (buildRecordOut headers)) =
        .error e) :
    copyOut st (headers :: rest) = ⟨[], some e⟩ := by
  have hany : (rest.any fun r => r.length ≠ headers.length) = false :=
    List.any_eq_false.mpr fun r hr => by simp [hlens r hr]
  simp only [copyOut, hany, Bool.false_eq_true, if_false, hschema]
  rw [if_neg hne, hconv]

theorem rankWiden_toNat (a b : TypeRank) :
    (rankWiden a b).toNat = max a.toNat b.toNat := by
  cases a <;> cases b <;> rfl

theorem rank_toNat_inj {a b : TypeRank} (h : a.toNat = b.toNat) : a = b := by
  cases a <;> cases b <;> simp_all [TypeRank.toNat]

theorem rankWiden_top (v : TypeRank) : rankWiden .typeString v = .typeString := by
  cases v <;> rfl

theorem rankWiden_empty (c : TypeRank) : rankWiden c .typeEmpty = c := by
  cases c <;> rfl

theorem rankFold_top (name : String) (rs : List GoRecord) :
    rankFold name rs .typeString = .typeString := by
  induction rs with
  | nil => rfl
  | cons r rs ih =>
    simp only [rankFold, List.foldl_cons, rankWiden_top]
    exact ih

theorem widestGo_eq_rankFold (name : String) :
    ∀ (records : List GoRecord) (cur : TypeRank),
      widestGo name records cur = rankFold name records cur := by
  intro records
  induction records with
  | nil => intro cur; rfl
  | cons r rs ih =>
    intro cur
    simp only [widestGo, rankFold, List.foldl_cons]
    have hcur : (match mapGet r name with
        | none => cur
        | some v => rankWiden cur (getValueTypeRank v)) =
        rankWiden cur (rankOfEntry name r) := by
      unfold rankOfEntry
      cases mapGet r name with
      | none => exact (rankWiden_empty cur).symm
      | some v => rfl
    rw [hcur]
    by_cases h : rankWiden cur (rankOfEntry name r) = .typeString
    · rw [if_pos h, h]
      exact (rankFold_top name rs).symm
    · rw [if_neg h]
      exact ih _

theorem rankFold_left_comm (name : String) (c : TypeRank) (a b : GoRecord) :
    rankWiden (rankWiden c (rankOfEntry name a)) (rankOfEntry name b) =
      rankWiden (rankWiden c (rankOfEntry name b)) (rankOfEntry name a) := by
  apply rank_toNat_inj
  simp only [rankWiden_toNat]
  omega

theorem rankFold_perm (name : String) {l₁ l₂ : List GoRecord} (hp : l₁.Perm l₂)
    (cur : TypeRank) : rankFold name l₁ cur = rankFold name l₂ cur := by
  haveI : RightCommutative fun c r => rankWiden c (rankOfEntry name r) :=
    ⟨fun c a b => rankFold_left_comm name c a b⟩
  exact hp.foldl_eq cur

theorem rankFold_cur_le (name : String) :
    ∀ (records : List GoRecord) (cur : TypeRank),
      cur.toNat ≤ (rankFold name records cur).toNat := by
  intro records
  induction records with
  | nil => intro cur; exact le_refl _
  | cons r rs ih =>
    intro cur
    calc cur.toNat ≤ (rankWiden cur (rankOfEntry name r)).toNat := by
          rw [rankWiden_toNat]; omega
      _ ≤ _ := ih _

theorem rankFold_ub (name : String) :
    ∀ (records : List GoRecord) (cur : TypeRank) (r : GoRecord), r ∈ records →
      (rankOfEntry name r).toNat ≤ (rankFold name records cur).toNat := by
  intro records
  induction records with
  | nil => intro cur r hr; cases hr
  | cons q rs ih =>
    intro cur r hr
    rcases List.mem_cons.mp hr with rfl | hr
    · calc (rankOfEntry name r).toNat ≤ (rankWiden cur (rankOfEntry name r)).toNat := by
            rw [rankWiden_toNat]; omega
        _ ≤ _ := rankFold_cur_le name rs _
    · exact ih _ r hr

theorem rankFold_attained (name : String) :
    ∀ (records : List GoRecord) (cur : TypeRank),
      rankFold name records cur = cur ∨
      ∃ r ∈ records, rankFold name records cur = rankOfEntry name r := by
  intro records
  induction records with
  | nil => intro cur; exact Or.inl rfl
  | cons q rs ih =>
    intro cur
    rcases ih (rankWiden cur (rankOfEntry name q)) with h | ⟨r, hr, h⟩
    · simp only [rankFold, List.foldl_cons] at h ⊢
      unfold rankWiden at h ⊢
      by_cases hlt : cur.toNat < (rankOfEntry name q).toNat
      · rw [if_pos hlt] at h ⊢
        exact Or.inr ⟨q, List.mem_cons_self _ _, h⟩
      · rw [if_neg hlt] at h ⊢
        exact Or.inl h
    · exact Or.inr ⟨r, List.mem_cons_of_mem _ hr, by
        simpa [rankFold, List.foldl_cons] using h⟩

/-! ## Lemmas: conversion error characterization -/

theorem convertFields_error_spec :
    ∀ (fields : List ParquetField) (record : GoRecord) (n : Nat) (e : CopyErr),
      convertFields record n fields = .error e →
      ∃ (i : Nat) (f : ParquetField) (v : GoValue),
        fields[i]? = some f ∧ mapGet record f.name = some v ∧
        setFieldValue (parquetTypeToGoType f.type) (some f) v = none ∧
        e = .conv f.name n (govFormat v) := by
  intro fields
  induction fields with
  | nil => intro record n e h; cases h
  | cons f fs ih =>
    intro record n e h
    cases hget : mapGet record f.name with
    | none =>
      simp only [convertFields, hget] at h
      cases hrec : convertFields record n fs with
      | error e2 =>
        rw [hrec] at h
        simp only [Except.error.injEq] at h
        obtain ⟨i, g, v, h1, h2, h3, h4⟩ := ih record n e2 hrec
        exact ⟨i + 1, g, v, by simpa using h1, h2, h3, by rw [← h, h4]⟩
      | ok cells =>
        rw [hrec] at h
        cases h
    | some v =>
      simp only [convertFields, hget] at h
      cases hset : setFieldValue (parquetTypeToGoType f.type) (some f) v with
      | none =>
        rw [hset] at h
        simp only [Except.error.injEq] at h
        exact ⟨0, f, v, by simp, hget, hset, h.symm⟩
      | some c =>
        rw [hset] at h
        cases hrec : convertFields record n fs with
        | error e2 =>
          rw [hrec] at h
          simp only [Except.error.injEq] at h
          obtain ⟨i, g, v2, h1, h2, h3, h4⟩ := ih record n e2 hrec
          exact ⟨i + 1, g, v2, by simpa using h1, h2, h3, by rw [← h, h4]⟩
        | ok cells =>
          rw [hrec] at h
          cases h

theorem convertRecords_error_spec :
    ∀ (rows : List GoRecord) (fields : List ParquetField) (idx : Nat) (e : CopyErr),
      convertRecords fields idx rows = .error e →
      ∃ (j : Nat) (r : GoRecord), rows[j]? = some r ∧
        convertMapToStruct r fields (idx + j + 1) = .error e := by
  intro rows
  induction rows with
  | nil => intro fields idx e h; cases h
  | cons r rs ih =>
    intro fields idx e h
    cases hconv : convertMapToStruct r fields (idx + 1) with
    | error e2 =>
      simp only [convertRecords, hconv] at h
      simp only [Except.error.injEq] at h
      exact ⟨0, r, by simp, by rw [show idx + 0 + 1 = idx + 1 from rfl, hconv, h]⟩
    | ok o =>
      simp only [convertRecords, hconv] at h
      cases hrest : convertRecords fields (idx + 1) rs with
      | error e2 =>
        rw [hrest] at h
        simp only [Except.error.injEq] at h
        obtain ⟨j, r2, h1, h2⟩ := ih fields (idx + 1) e2 hrest
        refine ⟨j + 1, r2, by simpa using h1, ?_⟩
        rw [show idx + (j + 1) + 1 = idx + 1 + j + 1 by omega, h2, h]
      | ok os =>
        rw [hrest] at h
        cases h

theorem convertFields_missing :
    ∀ (fields : List ParquetField) (record : GoRecord) (n : Nat)
      (cells : List TypedCell) (i : Nat) (f : ParquetField),
      convertFields record n fields = .ok cells →
      fields[i]? = some f → mapGet record f.name = none →
      cells[i]? = some (zeroCell (parquetTypeToGoType f.type)) := by
  intro fields
  induction fields with
  | nil => intro record n cells i f _ hf; simp at hf
  | cons g gs ih =>
    intro record n cells i f h hf hmiss
    cases i with
    | zero =>
      have hgf : g = f := by simpa using hf
      subst hgf
      simp only [convertFields, hmiss] at h
      cases hrec : convertFields record n gs with
      | error e2 => rw [hrec] at h; cases h
      | ok cs =>
        rw [hrec] at h
        simp only [Except.ok.injEq] at h
        rw [← h]
        simp
    | succ i =>
      simp only [List.getElem?_cons_succ] at hf
      cases hget : mapGet record g.name with
      | none =>
        simp only [convertFields, hget] at h
        cases hrec : convertFields record n gs with
        | error e2 => rw [hrec] at h; cases h
        | ok cs =>
          rw [hrec] at h
          simp only [Except.ok.injEq] at h
          rw [← h]
          simpa using ih record n cs i f hrec hf hmiss
      | some v =>
        simp only [convertFields, hget] at h
        cases hset : setFieldValue (parquetTypeToGoType g.type) (some g) v with
        | none => rw [hset] at h; cases h
        | some c =>
          rw [hset] at h
          cases hrec : convertFields record n gs with
          | error e2 => rw [hrec] at h; cases h
          | ok cs =>
            rw [hrec] at h
            simp only [Except.ok.injEq] at h
            rw [← h]
            simpa using ih record n cs i f hrec hf hmiss

/-! ## CopyOut outcome structure -/

theorem copyOut_written_metadata (st : ShovelState) (csv : List (List String))
    (out : ParquetFile) (h : (copyOut st csv).written = [out]) :
    out.metadata = st.metadata := by
  obtain ⟨os, om⟩ := st
  cases os with
  | some schema =>
    cases csv with
    | nil => simp [copyOut] at h
    | cons headers rest =>
      simp only [copyOut] at h
      by_cases h1 : (rest.any fun r => r.length ≠ headers.length) = true
      · rw [if_pos h1] at h
        simp at h
      · rw [if_neg h1] at h
        by_cases h2 : rest = []
        · rw [if_pos h2] at h
          simp at h
        · rw [if_neg h2] at h
          cases hcv : convertRecords schema 0
              ((rest.filter fun r => r.length = headers.length).map
                (buildRecordOut headers)) with
          | error e =>
            simp only [hcv] at h
            simp at h
          | ok rows =>
            simp only [hcv, List.cons.injEq, and_true] at h
            rw [← h]
            exact metaOpt_id om
  | none =>
    cases csv with
    | nil => simp [copyOut] at h
    | cons headers rest =>
      simp only [copyOut] at h
      by_cases h1 : (rest.any fun r => r.length ≠ headers.length) = true
      · rw [if_pos h1] at h
        simp at h
      · rw [if_neg h1] at h
        by_cases h2 : rest = []
        · rw [if_pos h2] at h
          simp at h
        · rw [if_neg h2] at h
          cases hcv : convertRecords
              (inferSchemaWithTypeWidening
                ((rest.filter fun r => r.length = headers.length).map
                  (buildRecordOut headers)) headers) 0
              ((rest.filter fun r => r.length = headers.length).map
                (buildRecordOut headers)) with
          | error e =>
            simp only [hcv] at h
            simp at h
          | ok rows =>
            simp only [hcv, List.cons.injEq, and_true] at h
            rw [← h]
            exact metaOpt_id om

theorem copyOut_err_written (st : ShovelState) (csv : List (List String)) (e : CopyErr)
    (h : (copyOut st csv).err = some e) : (copyOut st csv).written = [] := by
  obtain ⟨os, om⟩ := st
  cases os with
  | some schema =>
    cases csv with
    | nil => rfl
    | cons headers rest =>
      simp only [copyOut] at h ⊢
      by_cases h1 : (rest.any fun r => r.length ≠ headers.length) = true
      · rw [if_pos h1]
      · rw [if_neg h1] at h ⊢
        by_cases h2 : rest = []
        · rw [if_pos h2]
        · rw [if_neg h2] at h ⊢
          cases hcv : convertRecords schema 0
              ((rest.filter fun r => r.length = headers.length).map
                (buildRecordOut headers)) with
          | error e2 => simp only [hcv]
          | ok rows =>
            simp only [hcv] at h
            cases h
  | none =>
    cases csv with
    | nil => rfl
    | cons headers rest =>
      simp only [copyOut] at h ⊢
      by_cases h1 : (rest.any fun r => r.length ≠ headers.length) = true
      · rw [if_pos h1]
      · rw [if_neg h1] at h ⊢
        by_cases h2 : rest = []
        · rw [if_pos h2]
        · rw [if_neg h2] at h ⊢
          cases hcv : convertRecords
              (inferSchemaWithTypeWidening
                ((rest.filter fun r => r.length = headers.length).map
                  (buildRecordOut headers)) headers) 0
              ((rest.filter fun r => r.length = headers.length).map
                (buildRecordOut headers)) with
          | error e2 => simp only [hcv]
          | ok rows =>
            simp only [hcv] at h
            cases h

/-! ## Claims -/

/-- Claim C2, counterexample: the claim fails as stated.  The cell text
`2.7` does not parse as the declared INT64 storage type, yet `CopyOut`
does not abort: the text is parsed as a float and silently truncated to
the integer `2`. -/
theorem C2_conversion_counterexample :
    goParseInt64 "2.7" = none ∧
    copyOut ⟨some [fAgeField], none⟩ [["age"], ["2.7"]] =
      ⟨[⟨[fAgeField], none, [[.cInt64 2]]⟩], none⟩ := by
  decide

/-- Claim C2 (amended): a cell whose parsed CSV value cannot be converted
to its column's declared storage type — after Go's numeric cross-coercions
(float text truncates into integer columns, numeric text coerces to
boolean, etc.) — is fatal and aborts `CopyOut` with nothing written; the
error carries the column name, the 1-based row number among the retained
records, and the `%v` rendering of the offending parsed value (which is
the raw cell text whenever the text parsed as a string).  In particular
the `name,age` example fails with field `age`, row `2`, value `thirty`. -/
theorem C2_conversion_error (st : ShovelState) (schema : List ParquetField)
    (headers : List String) (rows : List (List String)) (e : CopyErr)
    (hschema : st.schema = some schema)
    (harity : ∀ r ∈ rows, r.length = headers.length)
    (hne : rows ≠ [])
    (hconv : convertRecords schema 0
      ((rows.filter fun r => r.length = headers.length).map (buildRecordOut headers)) =
        .error e) :
    copyOut st (headers :: rows) = ⟨[], some e⟩ ∧
    ∃ (j : Nat) (rec : GoRecord) (i : Nat) (f : ParquetField) (v : GoValue),
      j < rows.length ∧
      ((rows.filter fun r => r.length = headers.length).map
        (buildRecordOut headers))[j]? = some rec ∧
      schema[i]? = some f ∧ mapGet rec f.name = some v ∧
      setFieldValue (parquetTypeToGoType f.type) (some f) v = none ∧
      e = .conv f.name (j + 1) (govFormat v) := by
  refine ⟨copyOut_conv_err headers rows hschema harity hne hconv, ?_⟩
  obtain ⟨j, r, hj, hcms⟩ := convertRecords_error_spec _ schema 0 e hconv
  obtain ⟨i, f, v, h1, h2, h3, h4⟩ := convertFields_error_spec schema r (0 + j + 1) e hcms
  have hlt : j < rows.length := by
    have hlt1 := (List.getElem?_eq_some_iff.mp hj).1
    rw [List.length_map] at hlt1
    have hlt2 := List.length_filter_le (fun r => r.length = headers.length) rows
    omega
  have hn : 0 + j + 1 = j + 1 := by omega
  rw [hn] at h4
  exact ⟨j, r, i, f, v, hlt, hj, h1, h2, h3, h4⟩

/-- Claim C2, witness: the spec's own example.  Against the captured
schema `name: ByteArray, age: Int64`, the CSV rows `Alice,25` and
`Bob,thirty` make `CopyOut` fail with field `age`, row `2`, value
`thirty`, and nothing is written. -/
theorem C2_conversion_error_witness :
    copyOut ⟨some [fNameField, fAgeField], none⟩
        [["name", "age"], ["Alice", "25"], ["Bob", "thirty"]] =
      ⟨[], some (.conv "age" 2 "thirty")⟩ :=
  (C2_conversion_error ⟨some [fNameField, fAgeField], none⟩ [fNameField, fAgeField]
    ["name", "age"] [["Alice", "25"], ["Bob", "thirty"]] (.conv "age" 2 "thirty")
    rfl (by decide) (by decide) (by decide)).1

/-- Claim C3: evaluation of the code at the failing input.  With header
`a,b` and data rows `1,2` and `3`, the mismatched row `3` does not get
silently dropped: `encoding/csv` fixes `FieldsPerRecord` from the header,
so `ReadAll` fails with `ErrFieldCount` and `CopyOut` aborts with the
record-read error, writing nothing — the in-loop skip branch is
unreachable. -/
theorem C3_arity_mismatch_is_error :
    copyOut ⟨none, none⟩ [["a", "b"], ["1", "2"], ["3"]] = ⟨[], some .recordsRead⟩ ∧
    (["3"] : List String).length ≠ (["a", "b"] : List String).length := by
  decide

/-- Claim C4: schema inference is type widening to the maximum observed
rank.  For a nonempty record list, the inferred field at each header
position carries that header's name and the parquet type of the widening
fold; the fold is an upper bound of every record's rank for that column
and is attained (or is Empty); it is invariant under record permutation;
an all-empty column infers the string storage type (`BYTE_ARRAY`); and
the rank order is exactly Empty < Boolean < Integer < Float < String. -/
theorem C4_type_widening (records : List GoRecord) (headers : List String)
    (i : Nat) (name : String)
    (hne : records ≠ []) (hname : headers[i]? = some name) :
    ((inferSchemaWithTypeWidening records headers)[i]? =
      some ⟨name, typeRankToParquetType (rankFold name records .typeEmpty), none, none⟩) ∧
    (∀ r ∈ records, (rankOfEntry name r).toNat ≤ (rankFold name records .typeEmpty).toNat) ∧
    (rankFold name records .typeEmpty = .typeEmpty ∨
      ∃ r ∈ records, rankFold name records .typeEmpty = rankOfEntry name r) ∧
    (∀ records2, records.Perm records2 →
      determineWidestType name records2 = determineWidestType name records) ∧
    ((∀ r ∈ records, rankOfEntry name r = .typeEmpty) →
      determineWidestType name records = "BYTE_ARRAY") ∧
    (TypeRank.typeEmpty.toNat < TypeRank.typeBoolean.toNat ∧
      TypeRank.typeBoolean.toNat < TypeRank.typeInt.toNat ∧
      TypeRank.typeInt.toNat < TypeRank.typeFloat.toNat ∧
      TypeRank.typeFloat.toNat < TypeRank.typeString.toNat) := by
  refine ⟨?_, rankFold_ub name records _, rankFold_attained name records _, ?_, ?_, by decide⟩
  · unfold inferSchemaWithTypeWidening
    rw [if_neg hne, List.getElem?_map, hname]
    simp only [Option.map_some']
    unfold determineWidestType
    rw [widestGo_eq_rankFold]
  · intro records2 hp
    unfold determineWidestType
    rw [widestGo_eq_rankFold, widestGo_eq_rankFold, rankFold_perm name hp.symm]
  · intro hempty
    unfold determineWidestType
    rw [widestGo_eq_rankFold]
    rcases rankFold_attained name records .typeEmpty with h | ⟨r, hr, h⟩
    · rw [h]
      rfl
    · rw [h, hempty r hr]
      rfl

/-- Claim C4, witness: the spec's example column `["true","1","nope"]`
(widening Boolean to Integer to String) infers the string storage type,
as computed by the widening fold. -/
theorem C4_type_widening_witness :
    (inferSchemaWithTypeWidening
      ([["true"], ["1"], ["nope"]].map (buildRecordOut ["x"])) ["x"])[0]? =
      some ⟨"x", typeRankToParquetType (rankFold "x"
        ([["true"], ["1"], ["nope"]].map (buildRecordOut ["x"])) .typeEmpty), none, none⟩ :=
  (C4_type_widening ([["true"], ["1"], ["nope"]].map (buildRecordOut ["x"])) ["x"] 0 "x"
    (by decide) (by decide)).1

/-- Claim C5, counterexample: the claim fails as stated.  `CopyIn` of a
zero-row binary file produces a header-only CSV, but `CopyOut` of that
CSV on the same instance does not succeed: it aborts with the
`no records found in CSV` error and writes nothing. -/
theorem C5_headeronly_counterexample :
    (copyIn zeroRowFile).2 = [["name", "age"]] ∧
    copyOut (copyIn zeroRowFile).1 (copyIn zeroRowFile).2 = ⟨[], some .emptyInput⟩ := by
  decide

/-- Claim C5 (amended): `CopyIn` of a zero-row binary file emits only the
header record, and `CopyOut` applied to that header-only CSV on the same
instance always fails with the empty-input error (`no records found in
CSV`) and writes nothing — it never produces a zero-row binary file. -/
theorem C5_headeronly_error (file : ParquetFile) (hrows : file.rows = []) :
    (copyIn file).2 = [file.fields.map (·.name)] ∧
    copyOut (copyIn file).1 (copyIn file).2 = ⟨[], some .emptyInput⟩ := by
  have h2 : (copyIn file).2 = [file.fields.map (·.name)] := by
    rw [show (copyIn file).2 = (file.fields.map (·.name)) ::
      file.rows.map (fun row => writeRecordAsCSV (buildRecordIn file.fields row)
        (file.fields.map (·.name)) file.fields) from rfl, hrows]
    rfl
  refine ⟨h2, ?_⟩
  rw [h2]
  rfl

/-- Claim C5, witness: the amended behavior at the concrete two-column
zero-row file. -/
theorem C5_headeronly_witness :
    zeroRowFile.rows = [] ∧
    copyOut (copyIn zeroRowFile).1 (copyIn zeroRowFile).2 = ⟨[], some .emptyInput⟩ :=
  ⟨rfl, (C5_headeronly_error zeroRowFile rfl).2⟩

/-- Claim C6: date and timestamp format stability.  Day count `20313`
formats as `2025-08-13`; nanosecond count `1755126458027512000` formats as
`2025-08-13 23:07:38.027512000`; and the `CopyOut` conversion
(`setFieldValue` on the parsed CSV cell) maps each string back to exactly
the original integer. -/
theorem C6_date_timestamp_format :
    formatCSVValue (.cInt32 20313) (some fDateField) = "2025-08-13" ∧
    formatCSVValue (.cInt64 1755126458027512000) (some fTsField) =
      "2025-08-13 23:07:38.027512000" ∧
    setFieldValue (parquetTypeToGoType fDateField.type) (some fDateField)
      (parseCSVValue "2025-08-13") = some (.cInt32 20313) ∧
    setFieldValue (parquetTypeToGoType fTsField.type) (some fTsField)
      (parseCSVValue "2025-08-13 23:07:38.027512000") =
      some (.cInt64 1755126458027512000) := by
  decide

/-- Claim C7: metadata passthrough.  Whatever CSV records are fed to the
`CopyOut` that follows a `CopyIn` on the same instance — row edits
included — any parquet file it writes carries exactly the metadata blob
captured from the source file's footer. -/
theorem C7_metadata_passthrough (file : ParquetFile) (csvEdited : List (List String))
    (out : ParquetFile)
    (h : (copyOut (copyIn file).1 csvEdited).written = [out]) :
    out.metadata = file.metadata :=
  copyOut_written_metadata _ csvEdited out h

/-- Claim C7, witness: after `CopyIn` of the sample file, a `CopyOut` of an
edited CSV (every cell changed) still reattaches the captured metadata
blob byte-for-byte. -/
theorem C7_metadata_passthrough_witness :
    (copyOut (copyIn rtSampleFile).1 [["a", "b", "c", "d"], ["false", "7", "", "xyz"]]).written =
      [⟨rtSampleFile.fields, some [("k", "v")],
        [[.cBool false, .cInt64 7, .cFloat64 (.fin 0 0), .cStr "xyz"]]⟩] ∧
    (⟨rtSampleFile.fields, some [("k", "v")],
      [[.cBool false, .cInt64 7, .cFloat64 (.fin 0 0), .cStr "xyz"]]⟩ :
        ParquetFile).metadata = rtSampleFile.metadata :=
  ⟨by decide,
    C7_metadata_passthrough rtSampleFile [["a", "b", "c", "d"], ["false", "7", "", "xyz"]]
      ⟨rtSampleFile.fields, some [("k", "v")],
        [[.cBool false, .cInt64 7, .cFloat64 (.fin 0 0), .cStr "xyz"]]⟩ (by decide)⟩

/-- Claim C8: no partial write.  Whenever `CopyOut` returns an error — a
missing header, the csv field-count failure, empty input, or a value
conversion failure — the sequence of writes it performed on the
destination is empty: the buffered parquet bytes are copied out only on
success, in one final write. -/
theorem C8_no_partial_write (st : ShovelState) (csv : List (List String)) (e : CopyErr)
    (h : (copyOut st csv).err = some e) : (copyOut st csv).written = [] :=
  copyOut_err_written st csv e h

/-- Claim C8, witness: a conversion failure (`maybe` into a BOOLEAN
column) errors and writes nothing. -/
theorem C8_no_partial_write_witness :
    (copyOut ⟨some [⟨"flag", "BOOLEAN", none, none⟩], none⟩
      [["flag"], ["maybe"]]).err = some (.conv "flag" 1 "maybe") ∧
    (copyOut ⟨some [⟨"flag", "BOOLEAN", none, none⟩], none⟩
      [["flag"], ["maybe"]]).written = [] :=
  ⟨by decide, C8_no_partial_write _ _ (.conv "flag" 1 "maybe") (by decide)⟩

/-- Claim C9: `parseCSVValue` provisionally types a cell by attempting, in
order: empty text to nil, then integer, then float, then boolean, else
string — so text parseable as more than one primitive receives the
earliest type in that order; in particular `"1"`, which Go's `ParseBool`
also accepts, becomes the integer `1`. -/
theorem C9_parse_order :
    parseCSVValue "" = .vnull ∧
    (∀ (s : String) (n : Int), goParseInt64 s = some n → parseCSVValue s = .vint n) ∧
    (∀ (s : String) (f : GoFloat), s ≠ "" → goParseInt64 s = none →
      goParseFloat s = some f → parseCSVValue s = .vfloat f) ∧
    (∀ (s : String) (b : Bool), s ≠ "" → goParseInt64 s = none → goParseFloat s = none →
      goParseBool s = some b → parseCSVValue s = .vbool b) ∧
    (∀ (s : String), s ≠ "" → goParseInt64 s = none → goParseFloat s = none →
      goParseBool s = none → parseCSVValue s = .vstr s) ∧
    parseCSVValue "1" = .vint 1 ∧ goParseBool "1" = some true := by
  exact ⟨rfl, fun s n h => parseCSVValue_int h,
    fun s f hs hi hf => parseCSVValue_float hs hi hf,
    fun s b hs hi hf hb => parseCSVValue_bool hs hi hf hb,
    fun s hs hi hf hb => parseCSVValue_str hs hi hf hb,
    by decide, by decide⟩

/-- Claim C9, witness: `"1"` parses as an integer (the earliest matching
type), not as a boolean. -/
theorem C9_parse_order_witness : parseCSVValue "1" = GoValue.vint 1 :=
  C9_parse_order.2.1 "1" 1 (by decide)

/-- Claim C10: a schema column absent from the CSV header never causes a
`CopyOut` error and is written as its storage type's zero value.  If the
row converts, the missing column's cell is the zero value of its Go field
kind; and any conversion error names a column that is present in the
record, never the missing one. -/
theorem C10_missing_column (fields : List ParquetField) (record : GoRecord) (n : Nat)
    (i : Nat) (f : ParquetField)
    (hf : fields[i]? = some f) (hmiss : mapGet record f.name = none) :
    (∀ cells, convertMapToStruct record fields n = .ok cells →
      cells[i]? = some (zeroCell (parquetTypeToGoType f.type))) ∧
    (∀ e, convertMapToStruct record fields n = .error e →
      ∃ (j : Nat) (g : ParquetField) (v : GoValue), fields[j]? = some g ∧
        mapGet record g.name = some v ∧ e = .conv g.name n (govFormat v)) := by
  constructor
  · intro cells h
    exact convertFields_missing fields record n cells i f h hf hmiss
  · intro e h
    obtain ⟨j, g, v, h1, h2, h3, h4⟩ := convertFields_error_spec fields record n e h
    exact ⟨j, g, v, h1, h2, h4⟩

/-- Claim C10, witness: with schema `name, age` and a CSV that has only the
`name` header, the row converts without error and the `age` cell is the
int64 zero value. -/
theorem C10_missing_column_witness :
    mapGet (buildRecordOut ["name"] ["Alice"]) "age" = none ∧
    convertMapToStruct (buildRecordOut ["name"] ["Alice"]) [fNameField, fAgeField] 1 =
      .ok [.cStr "Alice", .cInt64 0] ∧
    ([TypedCell.cStr "Alice", .cInt64 0])[1]? =
      some (zeroCell (parquetTypeToGoType fAgeField.type)) :=
  ⟨by decide, by decide,
    (C10_missing_column [fNameField, fAgeField] (buildRecordOut ["name"] ["Alice"]) 1 1
      fAgeField (by decide) (by decide)).1 _ (by decide)⟩
